import Mathlib

/-!
Verification of the planar shape renderer (Rust sources: src/geometry.rs,
src/shape.rs, src/uniforms.rs, src/main.rs) against its design document.

The Rust code is shallowly embedded:
* `geometry.rs` functions become Lean functions.  `f32` trigonometry is
  idealised over the reals; the `segments as u32` cast in
  `generate_circle_indices` is modelled as reduction modulo 2^32
  (the target is a 64-bit platform, so `usize` is wider than `u32`).
* the model matrix built in `Shape::new_circle` / `Shape::new_triangle`
  (glam `Mat4::from_translation(p) * Mat4::from_scale(splat s)`) is embedded
  as a 4x4 rational matrix acting on column vectors, as glam does.
* the winit event loop in `main` becomes a state-transition function on an
  explicit orchestrator state; GPU-side calls (surface configuration,
  buffer uploads, bind-group setting, draws, submission) become an emitted
  trace of effects.  Exact rational arithmetic stands in for `f32`
  width/height divisions; `f32::EPSILON` is the exact rational 2^-23.
-/

namespace Planar

/-! ### Geometry generator (src/geometry.rs) -/

/-- Modulus of the Rust `u32` type, used by the `segments as u32` cast. -/
def U32_MOD : ℕ := 4294967296

/-- Embedding of `generate_circle_indices`.  The Rust loop runs
`for i in 0..segments as u32`, so the iteration count is `segments`
truncated to 32 bits, and then a trailing `0` closes the loop. -/
def generate_circle_indices (segments : ℕ) : List ℕ :=
  List.range (segments % U32_MOD) ++ [0]

/-- The angular step `std::f32::consts::TAU / segments as f32`, idealised
over ℝ.  (For `segments = 0` Rust produces `+inf` and Lean produces `0`;
the value is never consumed in that case because the vertex loop is empty.) -/
noncomputable def circleStep (segments : ℕ) : ℝ := 2 * Real.pi / segments

/-- Embedding of `generate_circle_vertices`: for each `i < segments` it
pushes `radius * cos(step*i)`, `radius * sin(step*i)`, `0.0`. -/
noncomputable def generate_circle_vertices (radius : ℝ) (segments : ℕ) : List ℝ :=
  (List.range segments).flatMap fun i =>
    [radius * Real.cos (circleStep segments * i),
     radius * Real.sin (circleStep segments * i),
     0]

/-- Flattened x/y/z triples: length of a 3-wide flatMap. -/
theorem triple_flatMap_length (f g : ℕ → ℝ) (l : List ℕ) :
    (l.flatMap fun i => [f i, g i, 0]).length = 3 * l.length := by
  induction l with
  | nil => simp
  | cons a t ih => simp [List.flatMap_cons, ih]; ring

theorem generate_circle_vertices_length (radius : ℝ) (segments : ℕ) :
    (generate_circle_vertices radius segments).length = 3 * segments := by
  simpa [generate_circle_vertices] using
    triple_flatMap_length (fun i => radius * Real.cos (circleStep segments * i))
      (fun i => radius * Real.sin (circleStep segments * i)) (List.range segments)

/-- Component access into the flattened triple list. -/
theorem triple_flatMap_getD (f g : ℕ → ℝ) (l : List ℕ) (j : ℕ) (hj : j < l.length) :
    (l.flatMap fun i => [f i, g i, 0]).getD (3 * j) 0 = f (l.getD j 0) ∧
    (l.flatMap fun i => [f i, g i, 0]).getD (3 * j + 1) 0 = g (l.getD j 0) ∧
    (l.flatMap fun i => [f i, g i, 0]).getD (3 * j + 2) 0 = 0 := by
  induction l generalizing j with
  | nil => cases hj
  | cons a t ih =>
    cases j with
    | zero => simp [List.flatMap_cons]
    | succ j =>
      have hj' : j < t.length := by simpa using hj
      have e0 : 3 * (j + 1) = 3 * j + 1 + 1 + 1 := by ring
      have e1 : 3 * (j + 1) + 1 = 3 * j + 1 + 1 + 1 + 1 := by ring
      have e2 : 3 * (j + 1) + 2 = 3 * j + 2 + 1 + 1 + 1 := by ring
      obtain ⟨h1, h2, h3⟩ := ih j hj'
      refine ⟨?_, ?_, ?_⟩
      · simpa [List.flatMap_cons, e0, List.getD_cons_succ] using h1
      · simpa [List.flatMap_cons, e1, List.getD_cons_succ] using h2
      · simpa [List.flatMap_cons, e2, List.getD_cons_succ] using h3

theorem range_getD (n j : ℕ) (hj : j < n) : (List.range n).getD j 0 = j := by
  rw [List.getD_eq_getElem?_getD, List.getElem?_range hj]
  rfl

/-! ### Instance transform (src/shape.rs, glam matrix algebra) -/

/-- Position vectors, scales and matrix entries: `f32` idealised as ℚ. -/
abbrev Vec3Q := ℚ × ℚ × ℚ

abbrev Mat4 := Matrix (Fin 4) (Fin 4) ℚ

/-- glam `Mat4::from_translation(p)`: identity with `p` in the fourth
column (glam multiplies column vectors on the right). -/
def mat4_from_translation (p : Vec3Q) : Mat4 :=
  Matrix.of ![![1, 0, 0, p.1], ![0, 1, 0, p.2.1], ![0, 0, 1, p.2.2], ![0, 0, 0, 1]]

/-- glam `Mat4::from_scale(Vec3::splat(s))`: uniform scale on x, y, z. -/
def mat4_from_scale (s : ℚ) : Mat4 :=
  Matrix.of ![![s, 0, 0, 0], ![0, s, 0, 0], ![0, 0, s, 0], ![0, 0, 0, 1]]

/-- The model matrix computed in `Shape::new_circle` / `Shape::new_triangle`:
`Mat4::from_translation(position) * Mat4::from_scale(Vec3::splat(scale))`. -/
def deriveModel (p : Vec3Q) (s : ℚ) : Mat4 :=
  mat4_from_translation p * mat4_from_scale s

/-- Apply a matrix to a point (homogeneous coordinate w = 1). -/
def applyPoint (M : Mat4) (v : Vec3Q) : Vec3Q :=
  let r := M.mulVec ![v.1, v.2.1, v.2.2, 1]
  (r 0, r 1, r 2)

/-- Apply a matrix to a direction (homogeneous coordinate w = 0). -/
def applyDir (M : Mat4) (v : Vec3Q) : Vec3Q :=
  let r := M.mulVec ![v.1, v.2.1, v.2.2, 0]
  (r 0, r 1, r 2)

/-! ### Shape entity (src/shape.rs / main.rs `Shape`) -/

inductive ShapeType
  | circle
  | triangle
deriving DecidableEq

/-- The `Shape` struct.  `instance_buffer` holds the packed model matrix
uploaded at construction (the contents of the GPU buffer). -/
structure Shape where
  shape_type : ShapeType
  position : Vec3Q
  scale : ℚ
  instance_buffer : Mat4

/-- `Shape::new_circle` (device / bind-group plumbing elided: the data it
stores is the kind tag, transform and packed model matrix). -/
def new_circle (position : Vec3Q) (scale : ℚ) : Shape :=
  { shape_type := ShapeType.circle, position := position, scale := scale,
    instance_buffer := deriveModel position scale }

/-- `Shape::new_triangle`. -/
def new_triangle (position : Vec3Q) (scale : ℚ) : Shape :=
  { shape_type := ShapeType.triangle, position := position, scale := scale,
    instance_buffer := deriveModel position scale }

/-! ### Render orchestrator (src/main.rs event loop) -/

/-- `f32::EPSILON` as an exact rational: 2^-23. -/
def f32Epsilon : ℚ := 1 / 2 ^ 23

/-- Orchestrator state threaded through the event loop.
`sizeW`/`sizeH` model the local `size = window.inner_size()` captured once
before the loop; `configW`/`configH` model `surface_config.width/height`;
`aspect` models `uniforms.aspect_ratio`; `uploadedAspect` models the
contents of the GPU-visible uniform buffer. -/
structure RenderState where
  sizeW : ℕ
  sizeH : ℕ
  configW : ℕ
  configH : ℕ
  aspect : ℚ
  uploadedAspect : ℚ
  shapes : List Shape

inductive BindGroupRef
  | uniformBG
  | shapeBG (i : ℕ)
deriving DecidableEq

/-- Externally visible GPU-side effects emitted while handling one event. -/
inductive Effect
  | writeUniform (v : ℚ)
  | configureSurface (w h : ℕ)
  | setPipeline (k : ShapeType)
  | setBindGroup (slot : ℕ) (g : BindGroupRef)
  | setVertexBuffer (k : ShapeType)
  | setIndexBuffer
  | drawIndexed (indexCount : ℕ)
  | draw (vertexCount : ℕ)
  | submit
  | present
deriving DecidableEq

def isDrawCall : Effect → Bool
  | Effect.drawIndexed _ => true
  | Effect.draw _ => true
  | _ => false

def isSubmit : Effect → Bool
  | Effect.submit => true
  | _ => false

def isPresent : Effect → Bool
  | Effect.present => true
  | _ => false

/-- `let circle_segments = 64;` in `main`. -/
def circle_segments : ℕ := 64

/-- `circle_index_data.len() as u32`. -/
def circle_index_count : ℕ := (generate_circle_indices circle_segments).length

/-- The body of the per-shape `match shape.shape_type` dispatch inside the
render pass; `i` is the position of the shape in the orchestrator list and
identifies its own bind group. -/
def drawShape (i : ℕ) (s : Shape) : List Effect :=
  match s.shape_type with
  | ShapeType.circle =>
      [Effect.setPipeline ShapeType.circle,
       Effect.setBindGroup 0 BindGroupRef.uniformBG,
       Effect.setBindGroup 1 (BindGroupRef.shapeBG i),
       Effect.setVertexBuffer ShapeType.circle,
       Effect.setIndexBuffer,
       Effect.drawIndexed circle_index_count]
  | ShapeType.triangle =>
      [Effect.setPipeline ShapeType.triangle,
       Effect.setBindGroup 0 BindGroupRef.uniformBG,
       Effect.setBindGroup 1 (BindGroupRef.shapeBG i),
       Effect.setVertexBuffer ShapeType.triangle,
       Effect.draw 3]

/-- Result of `surface.get_current_texture()`.  The `Err(_)` arm of the code
treats every acquisition error alike, in particular `SurfaceLost`. -/
inductive AcquireResult
  | ok
  | surfaceLost

/-- The `Event::RedrawRequested` arm.  On acquisition failure it only
reconfigures the surface and returns.  Otherwise it recomputes the aspect
ratio from the captured `size` (not the live window size), conditionally
re-uploads the uniform, then records one dispatch per shape in insertion
order, submits, and presents. -/
def redrawRequested (st : RenderState) (acq : AcquireResult) :
    RenderState × List Effect :=
  match acq with
  | AcquireResult.surfaceLost =>
      (st, [Effect.configureSurface st.configW st.configH])
  | AcquireResult.ok =>
      let new_aspect : ℚ := (st.sizeW : ℚ) / (st.sizeH : ℚ)
      let st1 :=
        if |new_aspect - st.aspect| > f32Epsilon then
          { st with aspect := new_aspect, uploadedAspect := new_aspect }
        else st
      let updEffects : List Effect :=
        if |new_aspect - st.aspect| > f32Epsilon then
          [Effect.writeUniform new_aspect]
        else []
      (st1,
       updEffects ++
         (st.shapes.enum.flatMap fun p => drawShape p.1 p.2) ++
         [Effect.submit, Effect.present])

/-- The `WindowEvent::Resized(new_size)` arm: update `surface_config`,
reconfigure the surface, then recompute and upload the aspect ratio.
Note it does not touch `sizeW`/`sizeH` (the code never reassigns `size`). -/
def resized (st : RenderState) (w h : ℕ) : RenderState × List Effect :=
  ({ st with configW := w, configH := h,
             aspect := (w : ℚ) / (h : ℚ),
             uploadedAspect := (w : ℚ) / (h : ℚ) },
   [Effect.configureSurface w h, Effect.writeUniform ((w : ℚ) / (h : ℚ))])

/-- Startup state: an 800x600 window, aspect `800/600`, and the shape list
built in `main`: one circle at (-0.5, 0, 0) scale 1.3, a triangle at
(0.5, 0.5, 0) scale 0.2, a triangle at (0.2, 0.2, 0) scale 0.4. -/
def initState : RenderState :=
  { sizeW := 800, sizeH := 600, configW := 800, configH := 600,
    aspect := (800 : ℚ) / 600, uploadedAspect := (800 : ℚ) / 600,
    shapes :=
      [new_circle (-(1/2), 0, 0) (13/10),
       new_triangle (1/2, 1/2, 0) (1/5),
       new_triangle (1/5, 1/5, 0) (2/5)] }

/-! ### Matrix action lemmas -/

theorem from_scale_mulVec (s : ℚ) (v : Fin 4 → ℚ) :
    (mat4_from_scale s).mulVec v = ![s * v 0, s * v 1, s * v 2, v 3] := by
  funext i
  fin_cases i <;>
    simp [mat4_from_scale, Matrix.mulVec, Matrix.dotProduct, Fin.sum_univ_four,
      Matrix.vecHead, Matrix.vecTail]

theorem from_translation_mulVec (p : Vec3Q) (v : Fin 4 → ℚ) :
    (mat4_from_translation p).mulVec v =
      ![v 0 + p.1 * v 3, v 1 + p.2.1 * v 3, v 2 + p.2.2 * v 3, v 3] := by
  funext i
  fin_cases i <;>
    simp [mat4_from_translation, Matrix.mulVec, Matrix.dotProduct, Fin.sum_univ_four,
      Matrix.vecHead, Matrix.vecTail]

/-- Action of the derived model matrix `T(p) * S(s)`: scale first, then
translate (the translation is unscaled). -/
theorem deriveModel_mulVec (p : Vec3Q) (s : ℚ) (v : Fin 4 → ℚ) :
    (deriveModel p s).mulVec v =
      ![s * v 0 + p.1 * v 3, s * v 1 + p.2.1 * v 3, s * v 2 + p.2.2 * v 3, v 3] := by
  rw [deriveModel, ← Matrix.mulVec_mulVec, from_scale_mulVec, from_translation_mulVec]
  funext i
  fin_cases i <;> simp

/-- Action of the opposite composition `S(s) * T(p)`: here the translation
gets scaled as well. -/
theorem scale_mul_translation_mulVec (p : Vec3Q) (s : ℚ) (v : Fin 4 → ℚ) :
    (mat4_from_scale s * mat4_from_translation p).mulVec v =
      ![s * (v 0 + p.1 * v 3), s * (v 1 + p.2.1 * v 3), s * (v 2 + p.2.2 * v 3), v 3] := by
  rw [← Matrix.mulVec_mulVec, from_translation_mulVec, from_scale_mulVec]
  funext i
  fin_cases i <;> simp

/-! ### Claim theorems -/

/-- The uniform scale matrix at scale 1 is the identity. -/
theorem mat4_from_scale_one : mat4_from_scale 1 = (1 : Mat4) := by
  ext i j
  fin_cases i <;> fin_cases j <;>
    simp [mat4_from_scale, Matrix.one_apply, Matrix.vecHead, Matrix.vecTail]

/-- Claim C5 counterexample: the claim asserts that whenever the position is
nonzero the composition order is `T * S`, not `S * T`.  At scale `s = 1`
this fails: `Scale(1)` is the identity matrix, so for the nonzero position
`(1, 0, 0)` the derived matrix `T * S` is exactly equal to the opposite
composition `S * T`. -/
theorem C5_counterexample_identity_scale :
    ((1 : ℚ), (0 : ℚ), (0 : ℚ)) ≠ ((0 : ℚ), (0 : ℚ), (0 : ℚ)) ∧
    deriveModel (1, 0, 0) 1 = mat4_from_scale 1 * mat4_from_translation (1, 0, 0) := by
  constructor
  · simp
  · rw [deriveModel, mat4_from_scale_one, Matrix.mul_one, Matrix.one_mul]

/-- Claim C5 (amended: the order-inequality clause additionally requires a
scale other than 1, where it is false because `Scale(1)` is the identity):
for every position `p` and scale `s`, the model matrix derived from a
Transform is `Translation(p) * Scale(s, s, s)`, applying it to the origin
yields `p`, and it maps the unit vector along each axis to that vector
scaled by `s`; and when `p` is nonzero and `s ≠ 1` the composition order
matters: `T * S` differs from `S * T`. -/
theorem C5_model_matrix_behaviour (p : Vec3Q) (s : ℚ) :
    deriveModel p s = mat4_from_translation p * mat4_from_scale s ∧
    applyPoint (deriveModel p s) (0, 0, 0) = p ∧
    applyDir (deriveModel p s) (1, 0, 0) = (s, 0, 0) ∧
    applyDir (deriveModel p s) (0, 1, 0) = (0, s, 0) ∧
    applyDir (deriveModel p s) (0, 0, 1) = (0, 0, s) ∧
    (p ≠ ((0 : ℚ), (0 : ℚ), (0 : ℚ)) → s ≠ 1 →
      deriveModel p s ≠ mat4_from_scale s * mat4_from_translation p) := by
  refine ⟨rfl, ?_, ?_, ?_, ?_, ?_⟩
  · simp [applyPoint, deriveModel_mulVec]
  · simp [applyDir, deriveModel_mulVec]
  · simp [applyDir, deriveModel_mulVec]
  · simp [applyDir, deriveModel_mulVec]
  · intro hp hs heq
    have h := congrArg (fun M => Matrix.mulVec M ![0, 0, 0, 1]) heq
    simp only [deriveModel_mulVec, scale_mul_translation_mulVec] at h
    obtain ⟨x, y, z⟩ := p
    have h0 := congrFun h 0
    have h1 := congrFun h 1
    have h2 := congrFun h 2
    simp at h0 h1 h2
    have key : ∀ w : ℚ, w = s * w → w = 0 := by
      intro w hw
      rcases mul_eq_zero.mp (show w * (s - 1) = 0 by linear_combination -hw) with h | h
      · exact h
      · exact absurd (by linarith) hs
    exact hp (by
      simp only [Prod.mk.injEq]
      exact ⟨key x h0, key y h1, key z h2⟩)

theorem C5_model_matrix_behaviour_witness :
    ((1 : ℚ), (0 : ℚ), (0 : ℚ)) ≠ ((0 : ℚ), (0 : ℚ), (0 : ℚ)) ∧ (2 : ℚ) ≠ 1 ∧
    (deriveModel (1, 0, 0) 2 = mat4_from_translation (1, 0, 0) * mat4_from_scale 2 ∧
     applyPoint (deriveModel (1, 0, 0) 2) (0, 0, 0) = (1, 0, 0) ∧
     applyDir (deriveModel (1, 0, 0) 2) (1, 0, 0) = (2, 0, 0) ∧
     applyDir (deriveModel (1, 0, 0) 2) (0, 1, 0) = (0, 2, 0) ∧
     applyDir (deriveModel (1, 0, 0) 2) (0, 0, 1) = (0, 0, 2) ∧
     deriveModel (1, 0, 0) 2 ≠ mat4_from_scale 2 * mat4_from_translation (1, 0, 0)) := by
  have h := C5_model_matrix_behaviour (1, 0, 0) 2
  exact ⟨by simp, by simp,
    h.1, h.2.1, h.2.2.1, h.2.2.2.1, h.2.2.2.2.1,
    h.2.2.2.2.2 (by simp) (by simp)⟩

/-- Claim C4 counterexample: `generate_circle_indices` is claimed to return
`segments + 1` elements for every `segments`, but the Rust loop bound is
`segments as u32`, which truncates; at `segments = 2^32` the result is the
single element `[0]`, of length 1, not `2^32 + 1`. -/
theorem C4_counterexample_u32_truncation :
    (generate_circle_indices (2 ^ 32)).length = 1 ∧
    (generate_circle_indices (2 ^ 32)).length ≠ 2 ^ 32 + 1 := by
  decide

/-- Claim C4 (amended to `segments < 2^32`, the range on which the
`as u32` cast is lossless): `generate_circle_indices(segments)` is the
sequence `0, 1, ..., segments-1, 0`, of length `segments + 1`, whose last
element equals its first element, `0`. -/
theorem C4_indices_closed_loop (segments : ℕ) (h : segments < U32_MOD) :
    generate_circle_indices segments = List.range segments ++ [0] ∧
    (generate_circle_indices segments).length = segments + 1 ∧
    (generate_circle_indices segments).head? = some 0 ∧
    (generate_circle_indices segments).getLast? = some 0 := by
  have hmod : segments % U32_MOD = segments := Nat.mod_eq_of_lt h
  have heq : generate_circle_indices segments = List.range segments ++ [0] := by
    rw [generate_circle_indices, hmod]
  refine ⟨heq, ?_, ?_, ?_⟩
  · rw [heq]; simp
  · rw [heq]
    cases segments with
    | zero => rfl
    | succ n => rw [List.range_succ_eq_map]; rfl
  · rw [heq, List.getLast?_concat]

theorem C4_indices_closed_loop_witness :
    5 < U32_MOD ∧
    (generate_circle_indices 5 = List.range 5 ++ [0] ∧
     (generate_circle_indices 5).length = 5 + 1 ∧
     (generate_circle_indices 5).head? = some 0 ∧
     (generate_circle_indices 5).getLast? = some 0) :=
  ⟨by decide, C4_indices_closed_loop 5 (by decide)⟩

/-- Claim C9: for `segments ≥ 1` every element of
`generate_circle_indices(segments)` is strictly below `segments`, hence a
valid point index into `generate_circle_vertices(r, segments)` (whose flat
float list has length `3 * segments`, so point `idx` occupies offsets
`3*idx .. 3*idx+2`).  This holds for all `segments`, including those where
the `as u32` cast truncates, because `segments % 2^32 ≤ segments`. -/
theorem C9_indices_in_bounds (segments idx : ℕ) (r : ℝ)
    (hs : 1 ≤ segments) (hmem : idx ∈ generate_circle_indices segments) :
    idx < segments ∧ 3 * idx + 2 < (generate_circle_vertices r segments).length := by
  have hidx : idx < segments := by
    have hcases : idx < segments % U32_MOD ∨ idx = 0 := by
      simpa [generate_circle_indices] using hmem
    rcases hcases with h | h
    · exact lt_of_lt_of_le h (Nat.mod_le _ _)
    · omega
  refine ⟨hidx, ?_⟩
  rw [generate_circle_vertices_length]
  omega

theorem C9_indices_in_bounds_witness :
    1 ≤ 4 ∧ 3 ∈ generate_circle_indices 4 ∧
    (3 < 4 ∧ 3 * 3 + 2 < (generate_circle_vertices 1 4).length) :=
  ⟨by decide, by decide, C9_indices_in_bounds 4 3 1 (by decide) (by decide)⟩

/-- Claim C8 counterexample: calling `generate_circle_vertices` with
`segments = 0` is not rejected and does not fail.  In Rust the division
`TAU / 0.0` is the non-trapping `f32` infinity and the vertex loop body
never runs, so the call returns an empty vertex list; there is no
validation and no DomainError anywhere in the code. -/
theorem C8_counterexample_zero_segments_returns_result :
    generate_circle_vertices 1 0 = [] ∧ (generate_circle_vertices 1 0).length = 0 := by
  constructor <;> simp [generate_circle_vertices]

/-- Claim C8 (amended): `generate_circle_vertices(r, 0)` is not validated or
rejected; for every radius it silently returns the empty vertex sequence,
and the `segments ≥ 1` constraint is purely a caller obligation. -/
theorem C8_zero_segments_empty (r : ℝ) : generate_circle_vertices r 0 = [] := by
  simp [generate_circle_vertices]

/-- Point `i` of the generated circle, read out of the flat float list. -/
theorem generate_circle_vertices_getD (r : ℝ) (s i : ℕ) (hi : i < s) :
    (generate_circle_vertices r s).getD (3 * i) 0 = r * Real.cos (circleStep s * i) ∧
    (generate_circle_vertices r s).getD (3 * i + 1) 0 = r * Real.sin (circleStep s * i) ∧
    (generate_circle_vertices r s).getD (3 * i + 2) 0 = 0 := by
  have h := triple_flatMap_getD (fun j => r * Real.cos (circleStep s * j))
      (fun j => r * Real.sin (circleStep s * j)) (List.range s) i (by simpa using hi)
  rw [range_getD s i hi] at h
  simpa [generate_circle_vertices] using h

/-- Claim C2 counterexample: the claim asserts every point lies at Euclidean
distance `r` for every radius `r`, but for the negative radius `r = -1`
(with `segments = 4`) the first generated point is `(-1, 0, 0)`, whose
distance from the origin is `1`, not `-1`. -/
theorem C2_counterexample_negative_radius :
    Real.sqrt (((generate_circle_vertices (-1) 4).getD 0 0) ^ 2 +
               ((generate_circle_vertices (-1) 4).getD 1 0) ^ 2) = 1 ∧
    (1 : ℝ) ≠ -1 := by
  obtain ⟨h0, h1, -⟩ := generate_circle_vertices_getD (-1) 4 0 (by norm_num)
  simp only [Nat.mul_zero, Nat.zero_add, Nat.cast_zero, mul_zero, Real.cos_zero,
    Real.sin_zero, mul_one] at h0 h1
  constructor
  · rw [h0, h1]
    norm_num [Real.sqrt_one]
  · norm_num

/-- Claim C2 (amended to nonnegative radius, the case the code is used
with): for `0 ≤ r` and `segments ≥ 3`, `generate_circle_vertices(r,
segments)` is a flat list of `3 * segments` floats; point `i` is
`(r cos(step i), r sin(step i), 0)` with `step = 2 pi / segments`, lies at
Euclidean distance exactly `r` from the origin, and the polar angles start
at `0` and strictly increase by `2 pi / segments` per point
(counter-clockwise order). -/
theorem C2_circle_vertices_spec (r : ℝ) (s i : ℕ)
    (hr : 0 ≤ r) (hs : 3 ≤ s) (hi : i < s) :
    (generate_circle_vertices r s).length = 3 * s ∧
    (generate_circle_vertices r s).getD (3 * i) 0 = r * Real.cos (circleStep s * i) ∧
    (generate_circle_vertices r s).getD (3 * i + 1) 0 = r * Real.sin (circleStep s * i) ∧
    (generate_circle_vertices r s).getD (3 * i + 2) 0 = 0 ∧
    Real.sqrt (((generate_circle_vertices r s).getD (3 * i) 0) ^ 2 +
               ((generate_circle_vertices r s).getD (3 * i + 1) 0) ^ 2) = r ∧
    circleStep s * ((0 : ℕ) : ℝ) = 0 ∧
    circleStep s * ((i + 1 : ℕ) : ℝ) = circleStep s * (i : ℝ) + 2 * Real.pi / s ∧
    circleStep s * (i : ℝ) < circleStep s * ((i + 1 : ℕ) : ℝ) := by
  obtain ⟨h0, h1, h2⟩ := generate_circle_vertices_getD r s i hi
  have hs0 : (0 : ℝ) < s := by
    have : 0 < s := by omega
    exact_mod_cast this
  have hstep : 0 < circleStep s := by
    rw [circleStep]
    positivity
  refine ⟨generate_circle_vertices_length r s, h0, h1, h2, ?_, by simp, ?_, ?_⟩
  · rw [h0, h1]
    have hpyth : (r * Real.cos (circleStep s * i)) ^ 2 +
        (r * Real.sin (circleStep s * i)) ^ 2 = r ^ 2 := by
      linear_combination (r ^ 2) * Real.sin_sq_add_cos_sq (circleStep s * i)
    rw [hpyth, Real.sqrt_sq hr]
  · push_cast
    rw [circleStep]
    ring
  · have hlt : (i : ℝ) < ((i + 1 : ℕ) : ℝ) := by exact_mod_cast Nat.lt_succ_self i
    exact mul_lt_mul_of_pos_left hlt hstep

theorem C2_circle_vertices_spec_witness :
    (0 : ℝ) ≤ 1 ∧ 3 ≤ 4 ∧ 2 < 4 ∧
    ((generate_circle_vertices 1 4).length = 3 * 4 ∧
     (generate_circle_vertices 1 4).getD (3 * 2) 0 = 1 * Real.cos (circleStep 4 * (2 : ℕ)) ∧
     (generate_circle_vertices 1 4).getD (3 * 2 + 1) 0 = 1 * Real.sin (circleStep 4 * (2 : ℕ)) ∧
     (generate_circle_vertices 1 4).getD (3 * 2 + 2) 0 = 0 ∧
     Real.sqrt (((generate_circle_vertices 1 4).getD (3 * 2) 0) ^ 2 +
                ((generate_circle_vertices 1 4).getD (3 * 2 + 1) 0) ^ 2) = 1 ∧
     circleStep 4 * ((0 : ℕ) : ℝ) = 0 ∧
     circleStep 4 * ((2 + 1 : ℕ) : ℝ) = circleStep 4 * ((2 : ℕ) : ℝ) + 2 * Real.pi / 4 ∧
     circleStep 4 * ((2 : ℕ) : ℝ) < circleStep 4 * ((2 + 1 : ℕ) : ℝ)) :=
  ⟨zero_le_one, by decide, by decide,
   C2_circle_vertices_spec 1 4 2 zero_le_one (by decide) (by decide)⟩

/-- Claim C1: the claim says the per-frame protocol recomputes the aspect
from the live viewport size, so the stored ratio never lags across frames.
The code instead recomputes it from the `size` binding captured once before
the event loop.  Evidence at the failing input (startup 800x600, then
`Resized(400, 600)`, then one `RedrawRequested`): the resize handler stores
the correct ratio 2/3, but the next frame compares against the startup size
and rewrites the stored ratio back to 4/3, while the live viewport ratio is
2/3 — so at the end of that frame the stored ratio does not equal the live
`width / height`. -/
theorem C1_aspect_recomputed_from_startup_size :
    (resized initState 400 600).1.aspect = 2 / 3 ∧
    (redrawRequested (resized initState 400 600).1 AcquireResult.ok).1.aspect = 4 / 3 ∧
    ((redrawRequested (resized initState 400 600).1 AcquireResult.ok).1.configW : ℚ) /
      ((redrawRequested (resized initState 400 600).1 AcquireResult.ok).1.configH : ℚ)
      = 2 / 3 ∧
    (4 : ℚ) / 3 ≠ 2 / 3 := by
  refine ⟨?_, ?_, ?_, by norm_num⟩
  · norm_num [resized, initState]
  · norm_num [redrawRequested, resized, initState, f32Epsilon, abs_of_nonneg]
  · norm_num [redrawRequested, resized, initState, f32Epsilon, abs_of_nonneg]

/-- Claim C3: a frame over the list [circle (64 segments), triangle,
triangle] emits exactly this command trace: per shape, in insertion order,
a pipeline bind, the global aspect uniform at slot 0, the own instance bind
group at slot 1, the vertex (and for the circle index) buffer, then one
draw call — `draw_indexed` over 65 indices for the circle and `draw` of 3
vertices for each triangle — followed by one submit and one present; in
particular the draw calls are exactly `drawIndexed 65, draw 3, draw 3`. -/
theorem C3_frame_issues_three_draws_in_order :
    (redrawRequested initState AcquireResult.ok).2 =
      [Effect.setPipeline ShapeType.circle,
       Effect.setBindGroup 0 BindGroupRef.uniformBG,
       Effect.setBindGroup 1 (BindGroupRef.shapeBG 0),
       Effect.setVertexBuffer ShapeType.circle,
       Effect.setIndexBuffer,
       Effect.drawIndexed 65,
       Effect.setPipeline ShapeType.triangle,
       Effect.setBindGroup 0 BindGroupRef.uniformBG,
       Effect.setBindGroup 1 (BindGroupRef.shapeBG 1),
       Effect.setVertexBuffer ShapeType.triangle,
       Effect.draw 3,
       Effect.setPipeline ShapeType.triangle,
       Effect.setBindGroup 0 BindGroupRef.uniformBG,
       Effect.setBindGroup 1 (BindGroupRef.shapeBG 2),
       Effect.setVertexBuffer ShapeType.triangle,
       Effect.draw 3,
       Effect.submit, Effect.present] ∧
    (redrawRequested initState AcquireResult.ok).2.filter isDrawCall =
      [Effect.drawIndexed 65, Effect.draw 3, Effect.draw 3] ∧
    circle_index_count = 65 := by
  have htrace : (redrawRequested initState AcquireResult.ok).2 =
      [Effect.setPipeline ShapeType.circle,
       Effect.setBindGroup 0 BindGroupRef.uniformBG,
       Effect.setBindGroup 1 (BindGroupRef.shapeBG 0),
       Effect.setVertexBuffer ShapeType.circle,
       Effect.setIndexBuffer,
       Effect.drawIndexed 65,
       Effect.setPipeline ShapeType.triangle,
       Effect.setBindGroup 0 BindGroupRef.uniformBG,
       Effect.setBindGroup 1 (BindGroupRef.shapeBG 1),
       Effect.setVertexBuffer ShapeType.triangle,
       Effect.draw 3,
       Effect.setPipeline ShapeType.triangle,
       Effect.setBindGroup 0 BindGroupRef.uniformBG,
       Effect.setBindGroup 1 (BindGroupRef.shapeBG 2),
       Effect.setVertexBuffer ShapeType.triangle,
       Effect.draw 3,
       Effect.submit, Effect.present] := by
    norm_num [redrawRequested, initState, f32Epsilon, drawShape, new_circle,
      new_triangle, List.enum, circle_index_count, circle_segments,
      generate_circle_indices, U32_MOD]
  refine ⟨htrace, ?_, by decide⟩
  rw [htrace]
  rfl

/-- Claim C6: the claim says the resize handler updates the stored viewport
size and that a single resize never yields one frame at the stale ratio.
The handler does reconfigure the surface and immediately re-upload the new
ratio (shown below for 800x600 to 400x300, where the stored ratio becomes
exactly 400/300 = 4/3 before the next frame), but it never updates the
stored `size` binding, so for an aspect-changing resize such as
`Resized(400, 600)` the very next frame begins by re-uploading the stale
startup ratio 800/600 before its draw calls: that frame is drawn at the
stale ratio, contradicting the claim. -/
theorem C6_resize_reuploads_but_size_stays_stale :
    (resized initState 400 300).1.aspect = 4 / 3 ∧
    (resized initState 400 300).1.configW = 400 ∧
    (resized initState 400 300).1.configH = 300 ∧
    (resized initState 400 300).2 =
      [Effect.configureSurface 400 300, Effect.writeUniform ((400 : ℚ) / 300)] ∧
    (resized initState 400 600).1.sizeW = 800 ∧
    (resized initState 400 600).1.sizeH = 600 ∧
    (redrawRequested (resized initState 400 600).1 AcquireResult.ok).2.head? =
      some (Effect.writeUniform ((800 : ℚ) / 600)) ∧
    (800 : ℚ) / 600 ≠ (400 : ℚ) / 600 := by
  refine ⟨?_, rfl, rfl, ?_, rfl, rfl, ?_, by norm_num⟩
  · norm_num [resized, initState]
  · norm_num [resized, initState]
  · norm_num [redrawRequested, resized, initState, f32Epsilon, abs_of_nonneg]

/-- Claim C7: when acquiring the drawable target fails (the `Err(_)` arm,
in particular `SurfaceLost`), the frame handler reconfigures the surface
against the current `surface_config` dimensions and returns: the state is
unchanged and the emitted trace is exactly one surface reconfiguration,
with zero draw, submit or present effects — the condition never escapes the
handler. -/
theorem C7_surface_lost_reconfigures_and_skips (st : RenderState) :
    (redrawRequested st AcquireResult.surfaceLost).1 = st ∧
    (redrawRequested st AcquireResult.surfaceLost).2 =
      [Effect.configureSurface st.configW st.configH] ∧
    (redrawRequested st AcquireResult.surfaceLost).2.countP isDrawCall = 0 ∧
    (redrawRequested st AcquireResult.surfaceLost).2.countP isSubmit = 0 ∧
    (redrawRequested st AcquireResult.surfaceLost).2.countP isPresent = 0 :=
  ⟨rfl, rfl, rfl, rfl, rfl⟩

/-- Claim C10: handling `RedrawRequested` never mutates any shape: the
shape list (kind, position, scale and instance buffer contents of every
entry) and the stored sizes are identical before and after the frame, for
every starting state and acquisition outcome; only the aspect fields can
change. -/
theorem C10_frame_preserves_shapes (st : RenderState) (acq : AcquireResult) :
    (redrawRequested st acq).1.shapes = st.shapes ∧
    (redrawRequested st acq).1.sizeW = st.sizeW ∧
    (redrawRequested st acq).1.sizeH = st.sizeH ∧
    (redrawRequested st acq).1.configW = st.configW ∧
    (redrawRequested st acq).1.configH = st.configH := by
  cases acq with
  | surfaceLost => exact ⟨rfl, rfl, rfl, rfl, rfl⟩
  | ok =>
    simp only [redrawRequested]
    split_ifs <;> exact ⟨rfl, rfl, rfl, rfl, rfl⟩
